import Mathlib

/-!
Shallow embedding of the Fireball job-scraping storage core
(src/fireball/storage/json_store.py and src/fireball/storage/models.py).

Modelling conventions:
- Python lists become Lean lists; pydantic models become structures.
- All datetime fields (discovered_at, added_at, last_updated) are elided:
  every claim under study is explicitly stated "aside from timestamp values",
  and no control flow in the source depends on a timestamp.
- The two backing files are modelled as explicit state components:
  job_ids_file holds the parsed content of job_ids.json (JSON serialization
  through pydantic round-trips, so the file is modelled by the JobIdsState
  value it encodes), and job_info_file holds the list of JSONL records of
  job_info.jsonl, one per line.
- Python set iteration order is unspecified; set(job_ids) is modelled by
  List.eraseDups, which keeps first occurrences.  No claim under study
  depends on the iteration order, only on the membership and the count.
-/

/-- Mirrors models.ApplyType. -/
inductive ApplyType where
  | easy_apply
  | regular
  | unknown
deriving DecidableEq, Repr

/-- Mirrors models.JobSearchMetadata (datetime field discovered_at elided). -/
structure JobSearchMetadata where
  keywords : List String
  location : Option String := none
  experience_levels : Option (List String) := none
deriving DecidableEq, Repr

/-- Mirrors models.JobIdEntry (datetime fields added_at, last_updated elided). -/
structure JobIdEntry where
  job_id : String
  search_metadata : JobSearchMetadata
deriving DecidableEq, Repr

/-- Mirrors models.JobIdsState (datetime field last_updated elided). -/
structure JobIdsState where
  to_scrape : List JobIdEntry := []
  scraped : List JobIdEntry := []
deriving DecidableEq, Repr

/-- Mirrors models.JobInfo (datetime field discovered_at elided). -/
structure JobInfo where
  job_id : String
  job_title : String
  company_name : String
  location : Option String := none
  posted_days_ago : Option String := none
  ppl_applied : Option String := none
  apply_link : Option String := none
  apply_type : ApplyType := ApplyType.unknown
  raw_description : Option String := none
deriving DecidableEq, Repr

/-- The full state of a JsonStorageManager: the in-memory job_ids_state plus
the contents of the two backing files (job_ids.json and job_info.jsonl). -/
structure StoreState where
  job_ids_state : JobIdsState
  job_ids_file : JobIdsState
  job_info_file : List JobInfo
deriving DecidableEq, Repr

/-- State after JsonStorageManager.__init__ on an empty storage directory:
_load_or_create_job_ids finds an empty file, creates the fresh JobIdsState
and saves it; the JSONL file is empty. -/
def initialState : StoreState :=
  { job_ids_state := {}, job_ids_file := {}, job_info_file := [] }

/-- JsonStorageManager.add_job_ids: drops ids already scraped (set(job_ids)
minus the scraped ids), appends a fresh entry to to_scrape for each
remaining id, then saves (job_ids_file := job_ids_state). -/
def add_job_ids (s : StoreState) (job_ids : List String)
    (search_metadata : JobSearchMetadata) : StoreState :=
  let existing_scraped_ids := s.job_ids_state.scraped.map (fun e => e.job_id)
  let new_ids := job_ids.eraseDups.filter
    (fun i => !(existing_scraped_ids.contains i))
  let entries := new_ids.map
    (fun i => { job_id := i, search_metadata := search_metadata : JobIdEntry })
  let st : JobIdsState :=
    { s.job_ids_state with to_scrape := s.job_ids_state.to_scrape ++ entries }
  { s with job_ids_state := st, job_ids_file := st }

/-- Helper for add_job_info: the Python loop that finds the first entry in
to_scrape with the given job_id and pops it, returning the entry and the
remaining list. -/
def popFirst (jid : String) : List JobIdEntry →
    Option (JobIdEntry × List JobIdEntry)
  | [] => none
  | e :: es =>
    if e.job_id = jid then some (e, es)
    else (popFirst jid es).map (fun p => (p.1, e :: p.2))

/-- JsonStorageManager.add_job_info: moves the first matching entry from
to_scrape to scraped (saving job_ids if one was found), then appends the
record to the JSONL file in either case. -/
def add_job_info (s : StoreState) (job_info : JobInfo) : StoreState :=
  match popFirst job_info.job_id s.job_ids_state.to_scrape with
  | some (entry, rest) =>
    let st : JobIdsState := { to_scrape := rest,
                              scraped := s.job_ids_state.scraped ++ [entry] }
    { job_ids_state := st, job_ids_file := st,
      job_info_file := s.job_info_file ++ [job_info] }
  | none =>
    { s with job_info_file := s.job_info_file ++ [job_info] }

/-- JsonStorageManager.get_job_info: returns none unless the id is in the
scraped partition; otherwise scans the JSONL file in order and returns the
first record whose job_id matches. -/
def get_job_info (s : StoreState) (job_id : String) : Option JobInfo :=
  if s.job_ids_state.scraped.any (fun e => e.job_id = job_id) then
    s.job_info_file.find? (fun r => r.job_id = job_id)
  else
    none

/-- JsonStorageManager.get_jobs_to_scrape. -/
def get_jobs_to_scrape (s : StoreState) : List JobIdEntry :=
  s.job_ids_state.to_scrape

/-- JsonStorageManager.get_scraped_jobs. -/
def get_scraped_jobs (s : StoreState) : List JobIdEntry :=
  s.job_ids_state.scraped

/-- JsonStorageManager.get_job_search_metadata: first matching entry in
to_scrape ++ scraped. -/
def get_job_search_metadata (s : StoreState) (job_id : String) :
    Option JobSearchMetadata :=
  ((s.job_ids_state.to_scrape ++ s.job_ids_state.scraped).find?
    (fun e => e.job_id = job_id)).map (fun e => e.search_metadata)

/-- Result shape of JsonStorageManager.get_storage_stats. -/
structure StorageStats where
  num_to_scrape : Nat
  num_scraped : Nat
  num_job_info : Nat
deriving DecidableEq, Repr

/-- JsonStorageManager.get_storage_stats: partition lengths plus the line
count of the JSONL file. -/
def get_storage_stats (s : StoreState) : StorageStats :=
  { num_to_scrape := s.job_ids_state.to_scrape.length,
    num_scraped := s.job_ids_state.scraped.length,
    num_job_info := s.job_info_file.length }

/-- Result shape of JsonStorageManager.get_scraping_changes. -/
structure StorageChanges where
  change_to_scrape : Int
  change_scraped : Int
  change_job_info : Int
deriving DecidableEq, Repr

/-- JsonStorageManager.get_scraping_changes: signed differences of the
current stats against a previously captured stats value. -/
def get_scraping_changes (s : StoreState) (before_stats : StorageStats) :
    StorageChanges :=
  let current_stats := get_storage_stats s
  { change_to_scrape :=
      (current_stats.num_to_scrape : Int) - before_stats.num_to_scrape,
    change_scraped :=
      (current_stats.num_scraped : Int) - before_stats.num_scraped,
    change_job_info :=
      (current_stats.num_job_info : Int) - before_stats.num_job_info }

/-- A backup directory: verbatim copies of the two storage files.  The
backup_info.json summary is not needed by any claim and is elided. -/
structure BackupSnapshot where
  job_ids : JobIdsState
  job_info : List JobInfo
deriving DecidableEq, Repr

/-- JsonStorageManager.backup, restricted to its data content: copies the
two current files into a fresh backup directory (shutil.copy2). -/
def backup (s : StoreState) : BackupSnapshot :=
  { job_ids := s.job_ids_file, job_info := s.job_info_file }

/-- Error taxonomy of the storage manager.  restore_from_backup raises
ValueError with a Backup-directory-not-found message; the spec calls this
the NotFound condition. -/
inductive StorageError where
  | notFound
deriving DecidableEq, Repr

/-- JsonStorageManager.restore_from_backup: the Option models whether the
backup path exists on disk (none = nonexistent).  On success the two live
files are overwritten with the snapshot copies and _load_or_create_job_ids
reloads the in-memory state from the restored queue file. -/
def restore_from_backup (b : Option BackupSnapshot) (_s : StoreState) :
    Except StorageError StoreState :=
  match b with
  | none => Except.error StorageError.notFound
  | some bk =>
    Except.ok { job_ids_state := bk.job_ids, job_ids_file := bk.job_ids,
                job_info_file := bk.job_info }

/-- A mutating call on the storage manager, for stating properties over
arbitrary call sequences. -/
inductive Op where
  | addJobIds (job_ids : List String) (m : JobSearchMetadata)
  | addJobInfo (j : JobInfo)
deriving DecidableEq, Repr

/-- Apply one mutating call. -/
def applyOp (s : StoreState) : Op → StoreState
  | Op.addJobIds ids m => add_job_ids s ids m
  | Op.addJobInfo j => add_job_info s j

/-- Run a sequence of mutating calls. -/
def run (s : StoreState) : List Op → StoreState
  | [] => s
  | op :: ops => run (applyOp s op) ops

/-!  Backup retention (JsonStorageManager._cleanup_old_backups), modelled as
a pure function on the directory listing.  A backup directory is named
backup_YYYYMMDD_HHMMSS_rrrr; Python's name.split("_")[1] therefore extracts
only the date component YYYYMMDD, not the full timestamp.  Python's sorted()
is stable, so ties on the date component keep the order of the directory
listing, which the filesystem does not specify. -/

/-- Character-list split on a separator character, matching Python's
str.split on a one-character separator (and String.splitOn): a_b splits to
a, b; leading, trailing and doubled separators yield empty fields. -/
def splitOnChar (c : Char) : List Char → List (List Char)
  | [] => [[]]
  | x :: xs =>
    let r := splitOnChar c xs
    if x = c then [] :: r
    else
      match r with
      | [] => [[x]]
      | g :: gs => (x :: g) :: gs

/-- The underscore-separated fields of a directory name,
Python name.split("_"). -/
def nameFields (name : String) : List String :=
  (splitOnChar '_' name.data).map (fun cs => String.mk cs)

/-- The sort key used by _cleanup_old_backups: name.split("_")[1].  For a
name backup_YYYYMMDD_HHMMSS_rrrr this is only the date component YYYYMMDD. -/
def backupSortKey (name : String) : String :=
  (nameFields name).getD 1 ""

/-- The timestamp embedded in a backup directory name
backup_YYYYMMDD_HHMMSS_rrrr: the date and time components. -/
def embeddedTimestamp (name : String) : String :=
  (nameFields name).getD 1 "" ++ "_" ++ (nameFields name).getD 2 ""

/-- Lexicographic less-or-equal on character lists by code point, the order
Python uses to compare strings. -/
def leChars : List Char → List Char → Bool
  | [], _ => true
  | _ :: _, [] => false
  | a :: as_, b :: bs =>
    if a.val.toNat < b.val.toNat then true
    else if b.val.toNat < a.val.toNat then false
    else leChars as_ bs

/-- Lexicographic less-or-equal on strings by code point. -/
def leString (a b : String) : Bool :=
  leChars a.data b.data

/-- Stable insertion into a list sorted by key: an element is placed before
the first element with a strictly greater key and after all elements with a
smaller-or-equal key, as Python's stable sorted() does. -/
def insortByKey (key : String → String) (x : String) :
    List String → List String
  | [] => [x]
  | y :: ys =>
    if leString (key x) (key y) then x :: y :: ys
    else y :: insortByKey key x ys

/-- Stable sort by key, matching Python's sorted(key=...). -/
def sortByKey (key : String → String) : List String → List String
  | [] => []
  | x :: xs => insortByKey key x (sortByKey key xs)

/-- Whether the first list is an initial segment of the second, used for
Python's name.startswith check. -/
def startsWithChars : List Char → List Char → Bool
  | [], _ => true
  | _ :: _, [] => false
  | p :: ps, c :: cs => p = c && startsWithChars ps cs

/-- Python name.startswith(pat). -/
def nameStartsWith (name pat : String) : Bool :=
  startsWithChars pat.data name.data

/-- The sorted working list of _cleanup_old_backups: directories whose name
starts with backup_, sorted stably by name.split("_")[1].  The input is the
directory listing in filesystem order. -/
def cleanupSorted (listing : List String) : List String :=
  sortByKey backupSortKey (listing.filter (fun d => nameStartsWith d "backup_"))

/-- The directories _cleanup_old_backups deletes: the while loop pops the
front of the sorted list until at most max_backups remain. -/
def cleanupDeleted (listing : List String) (max_backups : Nat) : List String :=
  let dirs := cleanupSorted listing
  dirs.take (dirs.length - max_backups)

/-- The directories remaining after _cleanup_old_backups. -/
def cleanupRemaining (listing : List String) (max_backups : Nat) :
    List String :=
  let dirs := cleanupSorted listing
  dirs.drop (dirs.length - max_backups)

/-- Sample metadata, as in the spec scenario. -/
def M0 : JobSearchMetadata := { keywords := ["python"], location := some "US" }

/-- Second sample metadata, distinct from M0. -/
def M1 : JobSearchMetadata :=
  { keywords := ["senior developer"], location := some "Remote" }

/-- A detail record for identifier a with title T1. -/
def recA : JobInfo := { job_id := "a", job_title := "T1", company_name := "C" }

/-- A second detail record for identifier a with a different title T2. -/
def recA2 : JobInfo := { job_id := "a", job_title := "T2", company_name := "C" }

/-- The detail record of the spec scenario. -/
def recJ1 : JobInfo :=
  { job_id := "j1", job_title := "Eng", company_name := "C" }

/-- The job_ids.json file content always mirrors the in-memory state:
every mutation ends in _save_job_ids (or leaves both untouched). -/
def fileSynced (s : StoreState) : Prop := s.job_ids_file = s.job_ids_state

/-- Each storage call preserves the file-memory sync. -/
theorem applyOp_fileSynced (s : StoreState) (op : Op) (h : fileSynced s) :
    fileSynced (applyOp s op) := by
  cases op with
  | addJobIds ids m => simp [applyOp, add_job_ids, fileSynced]
  | addJobInfo j =>
    simp only [applyOp, add_job_info]
    cases hp : popFirst j.job_id s.job_ids_state.to_scrape with
    | none => simpa [fileSynced] using h
    | some p => simp [fileSynced]

/-- Any call sequence preserves the file-memory sync. -/
theorem run_fileSynced (ops : List Op) (s : StoreState) (h : fileSynced s) :
    fileSynced (run s ops) := by
  induction ops generalizing s with
  | nil => exact h
  | cons op ops ih => exact ih _ (applyOp_fileSynced s op h)

/-- find? returns the head of the filtered list. -/
theorem find?_eq_filter_head {α : Type} (p : α → Bool) (l : List α) :
    l.find? p = (l.filter p).head? := by
  induction l with
  | nil => rfl
  | cons a l ih =>
    cases h : p a with
    | true =>
      rw [List.find?_cons_of_pos l h, List.filter_cons_of_pos h,
        List.head?_cons]
    | false =>
      have h' : ¬p a = true := by rw [h]; exact Bool.false_ne_true
      rw [List.find?_cons_of_neg l h', List.filter_cons_of_neg h', ih]

/-- C1: the claimed invariant fails.  From the empty state, two
add_job_ids calls with the same identifier put two entries for it into
the to_scrape partition: the code only filters against scraped, never
against to_scrape, so an identifier can be duplicated within to_scrape. -/
theorem add_job_ids_duplicates_pending :
    ((run initialState
        [Op.addJobIds ["a"] M0, Op.addJobIds ["a"] M0]).job_ids_state
      |>.to_scrape.map (fun e => e.job_id)).count "a" = 2 := by
  decide

/-- C2: the claimed latest-wins metadata policy fails.  add_job_ids with an
identifier already pending appends a second entry instead of overwriting,
and get_job_search_metadata returns the first matching entry, so the OLD
metadata M0 is returned, not the newly supplied M1. -/
theorem metadata_first_wins_not_latest :
    get_job_search_metadata
        (run initialState [Op.addJobIds ["a"] M0, Op.addJobIds ["a"] M1])
        "a" = some M0
      ∧ M0 ≠ M1 := by
  constructor
  · decide
  · decide

/-- C3: add_job_ids is not idempotent.  Calling it twice with the same
identifier list and metadata leaves two entries in to_scrape where one
call leaves one; timestamps are already elided from the model, so the
difference is structural, not a timestamp refresh. -/
theorem add_job_ids_not_idempotent :
    (run initialState
        [Op.addJobIds ["a"] M0, Op.addJobIds ["a"] M0]).job_ids_state ≠
      (run initialState [Op.addJobIds ["a"] M0]).job_ids_state
    ∧ (run initialState
        [Op.addJobIds ["a"] M0,
         Op.addJobIds ["a"] M0]).job_ids_state.to_scrape.length = 2
    ∧ (run initialState
        [Op.addJobIds ["a"] M0]).job_ids_state.to_scrape.length = 1 := by
  refine ⟨by decide, by decide, by decide⟩

/-- C4 counterexample: the detail log read is first-wins, not last-wins.
Reachable state: add identifier a, scrape it with record recA (title T1),
then append recA2 (title T2) for the same identifier.  The last matching
record in file order is recA2, but get_job_info returns recA. -/
theorem get_job_info_returns_first_not_last :
    ((run initialState
        [Op.addJobIds ["a"] M0, Op.addJobInfo recA,
         Op.addJobInfo recA2]).job_info_file.filter
      (fun r => r.job_id = "a")).getLast? = some recA2
    ∧ get_job_info
        (run initialState
          [Op.addJobIds ["a"] M0, Op.addJobInfo recA, Op.addJobInfo recA2])
        "a" = some recA
    ∧ recA ≠ recA2 := by
  refine ⟨by decide, by decide, by decide⟩

/-- C4 amended: when the identifier is in the scraped partition,
get_job_info returns the FIRST record in file order whose identifier
matches (the head of the matching sublist), and null when none matches;
when the identifier is not in the scraped partition it returns null
regardless of the log. -/
theorem get_job_info_first_match_spec (s : StoreState) (job_id : String) :
    get_job_info s job_id =
      if s.job_ids_state.scraped.any (fun e => e.job_id = job_id) then
        (s.job_info_file.filter (fun r => r.job_id = job_id)).head?
      else none := by
  unfold get_job_info
  rw [find?_eq_filter_head]

/-- C5: identifiers in the scraped partition are never re-queued: if the
identifier is in scraped and absent from to_scrape, it is still absent
from to_scrape after any add_job_ids call, whatever identifiers and
metadata are passed. -/
theorem scraped_never_requeued (s : StoreState) (ids : List String)
    (m : JobSearchMetadata) (jid : String)
    (hscr : ∃ e ∈ s.job_ids_state.scraped, e.job_id = jid)
    (hpend : ∀ e ∈ s.job_ids_state.to_scrape, e.job_id ≠ jid) :
    ∀ e ∈ (add_job_ids s ids m).job_ids_state.to_scrape, e.job_id ≠ jid := by
  intro e he
  unfold add_job_ids at he
  simp only [List.mem_append] at he
  rcases he with he | he
  · exact hpend e he
  · simp only [List.mem_map] at he
    obtain ⟨i, hi, rfl⟩ := he
    simp only [List.mem_filter, Bool.not_eq_true'] at hi
    intro hjid
    obtain ⟨e', he', hje⟩ := hscr
    have hmem : i ∈ s.job_ids_state.scraped.map (fun e => e.job_id) :=
      List.mem_map.mpr ⟨e', he', hje.trans hjid.symm⟩
    have helem :
        List.elem i (s.job_ids_state.scraped.map (fun e => e.job_id)) =
          true :=
      List.elem_iff.mpr hmem
    have hfalse :
        List.elem i (s.job_ids_state.scraped.map (fun e => e.job_id)) =
          false := hi.2
    rw [helem] at hfalse
    exact Bool.noConfusion hfalse

/-- A concrete state with identifier a scraped and nothing pending. -/
def S0 : StoreState :=
  { job_ids_state := { to_scrape := [],
                       scraped := [{ job_id := "a",
                                     search_metadata := M0 }] },
    job_ids_file := { to_scrape := [],
                      scraped := [{ job_id := "a",
                                    search_metadata := M0 }] },
    job_info_file := [] }

/-- C5 witness: with identifier a scraped and to_scrape empty, a new
add_job_ids call containing a queues only b, and the queued entry is not
a. -/
theorem scraped_never_requeued_witness :
    ((add_job_ids S0 ["a", "b"] M1).job_ids_state.to_scrape.map
      (fun e => e.job_id)) = ["b"]
    ∧ ({ job_id := "b", search_metadata := M1 } : JobIdEntry).job_id ≠ "a" :=
  ⟨by decide,
    scraped_never_requeued S0 ["a", "b"] M1 "a" (by decide) (by decide)
      { job_id := "b", search_metadata := M1 } (by decide)⟩

/-- C6: backup-restore round trip.  For any reachable state (any call
sequence ops1 from the empty state), taking a backup, mutating the state
by any further call sequence ops2, and restoring from that backup yields
a state that agrees with the pre-backup state on get_storage_stats,
get_job_info and get_job_search_metadata for every identifier. -/
theorem backup_restore_roundtrip (ops1 ops2 : List Op) (jid : String) :
    ∃ r, restore_from_backup (some (backup (run initialState ops1)))
          (run (run initialState ops1) ops2) = Except.ok r
      ∧ get_storage_stats r = get_storage_stats (run initialState ops1)
      ∧ get_job_info r jid = get_job_info (run initialState ops1) jid
      ∧ get_job_search_metadata r jid =
          get_job_search_metadata (run initialState ops1) jid := by
  have hs : (run initialState ops1).job_ids_file =
      (run initialState ops1).job_ids_state :=
    run_fileSynced ops1 initialState rfl
  refine ⟨_, rfl, ?_, ?_, ?_⟩
  · simp [get_storage_stats, restore_from_backup, backup, hs]
  · simp [get_job_info, restore_from_backup, backup, hs]
  · simp [get_job_search_metadata, restore_from_backup, backup, hs]

/-- C7: retention deletes by date component, not by the full embedded
timestamp.  Two same-day backups, listed by the filesystem with the later
time first, have equal sort keys (the date), so the stable sort keeps the
listing order and the deleted directory is the one with the strictly
LATER embedded timestamp, while the count of survivors is still the cap. -/
theorem cleanup_deletes_late_timestamp :
    cleanupDeleted
        ["backup_20250101_090000_aaaa", "backup_20250101_080000_bbbb"] 1 =
      ["backup_20250101_090000_aaaa"]
    ∧ cleanupRemaining
        ["backup_20250101_090000_aaaa", "backup_20250101_080000_bbbb"] 1 =
      ["backup_20250101_080000_bbbb"]
    ∧ leString (embeddedTimestamp "backup_20250101_080000_bbbb")
        (embeddedTimestamp "backup_20250101_090000_aaaa") = true
    ∧ embeddedTimestamp "backup_20250101_080000_bbbb" ≠
        embeddedTimestamp "backup_20250101_090000_aaaa" := by
  refine ⟨by decide, by decide, by decide, by decide⟩

/-- C8: restore_from_backup errors with the NotFound condition exactly
when the backup path does not exist; when it exists, both live files are
replaced by the snapshot copies and the in-memory state is reloaded from
the restored queue file. -/
theorem restore_from_backup_spec (b : Option BackupSnapshot)
    (s : StoreState) :
    (restore_from_backup b s = Except.error StorageError.notFound ↔
      b = none)
    ∧ (∀ bk, b = some bk →
        restore_from_backup b s =
          Except.ok { job_ids_state := bk.job_ids,
                      job_ids_file := bk.job_ids,
                      job_info_file := bk.job_info }) := by
  cases b with
  | none => exact ⟨by simp [restore_from_backup], by intro bk h; cases h⟩
  | some bk =>
    refine ⟨by simp [restore_from_backup], ?_⟩
    intro bk' h
    cases h
    rfl

/-- C8 witness: restoring an existing empty snapshot succeeds and installs
its contents. -/
theorem restore_from_backup_spec_witness :
    restore_from_backup (some { job_ids := {}, job_info := [recA] })
        initialState =
      Except.ok { job_ids_state := {}, job_ids_file := {},
                  job_info_file := [recA] } :=
  (restore_from_backup_spec
      (some { job_ids := {}, job_info := [recA] }) initialState).2
    { job_ids := {}, job_info := [recA] } rfl

/-- C9: the spec scenario.  Adding j1, j2, j3 from the empty state gives
stats 3 pending, 0 scraped, 0 detail records; recording the detail of j1
gives stats 2, 1, 1, and the diff against the earlier stats is -1
to_scrape, +1 scraped, +1 job_info. -/
theorem scenario_stats :
    get_storage_stats (add_job_ids initialState ["j1", "j2", "j3"] M0) =
      { num_to_scrape := 3, num_scraped := 0, num_job_info := 0 }
    ∧ get_storage_stats
        (add_job_info (add_job_ids initialState ["j1", "j2", "j3"] M0)
          recJ1) =
      { num_to_scrape := 2, num_scraped := 1, num_job_info := 1 }
    ∧ get_scraping_changes
        (add_job_info (add_job_ids initialState ["j1", "j2", "j3"] M0)
          recJ1)
        (get_storage_stats (add_job_ids initialState ["j1", "j2", "j3"] M0)) =
      { change_to_scrape := -1, change_scraped := 1, change_job_info := 1 } := by
  refine ⟨by decide, by decide, by decide⟩

/-- C10: get_job_info is gated on the scraped partition: whenever the
identifier has no entry in scraped, it returns none, no matter what the
detail log contains. -/
theorem get_job_info_requires_scraped (s : StoreState) (jid : String)
    (h : ∀ e ∈ s.job_ids_state.scraped, e.job_id ≠ jid) :
    get_job_info s jid = none := by
  unfold get_job_info
  have : s.job_ids_state.scraped.any (fun e => e.job_id = jid) = false := by
    simp only [List.any_eq_false, decide_eq_true_eq]
    exact h
  simp [this]

/-- C10 witness: appending a detail record for an identifier with no
pending entry leaves the record in the log but not retrievable. -/
theorem get_job_info_requires_scraped_witness :
    (add_job_info initialState recA).job_info_file = [recA]
    ∧ get_job_info (add_job_info initialState recA) "a" = none :=
  ⟨by decide,
    get_job_info_requires_scraped (add_job_info initialState recA) "a"
      (by decide)⟩
